import Mathlib

/-!
Verification of the `niceperf` latency-measurement harness
(`src/latency/src/main.rs`, 389 lines) against its natural-language
specification.

The Rust source is shallowly embedded: the typestate-parameterised UDP
socket `UdpLatency<Kind>` becomes a record with an explicit kind tag and
an optional peer; the `tokio::select!` event loops of `Client::run` and
`Client::handshake` become deterministic step functions over explicit
states carrying wall-clock time in milliseconds, a tick counter for the
`tokio::time::interval` timers, and the loop status.  Panics (`unwrap`,
`todo!`, failed `assert!`) are modelled as `Option`/status outcomes.

Timer semantics follow tokio: an `interval` created at time `t0` with
period `i` has its `k`-th tick scheduled at `t0 + k*i` and, when the loop
falls behind, a missed tick fires as soon as it is polled (burst
behaviour) — hence a ready time of `max now (t0 + k*i)`.  A
`tokio::time::sleep(d)` expression written inline inside `select!` inside
a `loop` is re-created on every loop iteration, so its deadline is
`now + d` measured from the iteration start, not from loop entry.
When several branches are ready at the same instant `tokio::select!`
picks randomly; the embedding fixes an arbitrary priority
(stop, then control, then tick, then sleep), and every theorem whose
truth could depend on tie order uses strict inequalities instead.
-/

namespace Niceperf

/-- Socket addresses (`std::net::SocketAddr`), abstracted to naturals:
the source only ever compares them for equality. -/
abbrev Addr := Nat

/-- A byte of payload; values are naturals below 256 where it matters. -/
abbrev Byte := Nat

/-- `LatencyMsg` (main.rs lines 18–23): the probe wire message,
`{ id: u64, seq: u64, timestamp: u64 }`.  Defined in the source but —
notably — never constructed anywhere in it. -/
structure LatencyMsg where
  id : Nat
  seq : Nat
  timestamp : Nat
deriving DecidableEq

/-- Little-endian 8-byte encoding of a `u64`, as `bincode` (the
serializer used by the source for control messages) lays out fixed-width
integers. -/
def u64le (x : Nat) : List Byte :=
  (List.range 8).map (fun i => x / 256 ^ i % 256)

/-- `bincode` encoding of `LatencyMsg`: the three `u64` fields in
declaration order, 8 little-endian bytes each (24 bytes total). -/
def encodeLatencyMsg (m : LatencyMsg) : List Byte :=
  u64le m.id ++ u64le m.seq ++ u64le m.timestamp

/-- The zero-sized role markers `socket_kind::Server` / `socket_kind::Client`
(main.rs lines 30–33), embedded as a tag. -/
inductive SocketKind
  | server
  | client
deriving DecidableEq

/-- `UdpLatency<Kind>` (main.rs lines 40–44): a UDP socket plus an
optional peer address.  The `Kind` type parameter is embedded as the
`kind` field; both constructors below fix it, mirroring the two
role-specific `impl` blocks. -/
structure UdpLatency where
  kind : SocketKind
  peer : Option Addr
deriving DecidableEq

/-- `UdpLatency::<socket_kind::Server>::new(local)` (main.rs lines
45–64): binds the local address and starts with `peer = None`.  The
bound address itself never influences later behaviour, so it is taken
and discarded. -/
def UdpLatency.newServer (_localAddr : Addr) : UdpLatency :=
  { kind := SocketKind.server, peer := none }

/-- `UdpLatency::<socket_kind::Client>::new(remote)` (main.rs lines
66–81): an unbound socket whose peer is fixed to `remote` at
construction. -/
def UdpLatency.newClient (remote : Addr) : UdpLatency :=
  { kind := SocketKind.client, peer := some remote }

/-- The error the source raises on a datagram from an unexpected source
(`anyhow!("recv from wrong addr")`, main.rs line 93); the spec calls it
`PeerMismatch`. -/
inductive RecvError
  | peerMismatch
deriving DecidableEq

/-- `UdpLatency::send` for any `Kind` (main.rs lines 84–87):
`send_to(buf, self.peer.unwrap())`.  Returns the destination address,
the byte count, and the socket; `none` models the `unwrap` panic when no
peer is configured. -/
def UdpLatency.send (s : UdpLatency) (buf : List Byte) :
    Option (Addr × Nat × UdpLatency) :=
  match s.peer with
  | some p => some (p, buf.length, s)
  | none => none

/-- `UdpLatency::recv` for any `Kind` (main.rs lines 89–100), applied to
one inbound datagram of length `len` from source address `src`: if a
peer is pinned and `src` differs, fail with the mismatch error; if no
peer is pinned yet, pin `src`; otherwise succeed. -/
def UdpLatency.recv (s : UdpLatency) (src : Addr) (len : Nat) :
    Except RecvError (Nat × UdpLatency) :=
  match s.peer with
  | some p =>
    if src = p then Except.ok (len, s)
    else Except.error RecvError.peerMismatch
  | none => Except.ok (len, { s with peer := some src })

/-- Repeated `recv` calls on one socket, fed a list of inbound datagrams
`(source, length)`; produces the final socket state and the per-datagram
results.  On a failed `recv` the socket state is unchanged (the source
returns before touching `self.peer`). -/
def recvTrace (s : UdpLatency) : List (Addr × Nat) → UdpLatency × List (Except RecvError Nat)
  | [] => (s, [])
  | d :: ds =>
    match s.recv d.1 d.2 with
    | Except.ok (l, s1) =>
      let r := recvTrace s1 ds
      (r.1, Except.ok l :: r.2)
    | Except.error e =>
      let r := recvTrace s ds
      (r.1, Except.error e :: r.2)

/-- One call into the `Latency` capability of a socket. -/
inductive UdpOp
  | send (buf : List Byte)
  | recv (src : Addr) (len : Nat)
deriving DecidableEq

/-- Observable outcome of one `UdpOp`. -/
inductive UdpOpResult
  | sent (dest : Addr) (n : Nat)
  | sendPanic
  | recvd (n : Nat)
  | recvErr (e : RecvError)
deriving DecidableEq

/-- Run a sequence of send/recv calls against a socket.  A send with no
configured peer panics (`unwrap` on `None`), which ends the run; a
failed recv reports the error and leaves the socket state unchanged. -/
def runOps (s : UdpLatency) : List UdpOp → UdpLatency × List UdpOpResult
  | [] => (s, [])
  | UdpOp.send buf :: ops =>
    match s.send buf with
    | some (d, n, s1) =>
      let r := runOps s1 ops
      (r.1, UdpOpResult.sent d n :: r.2)
    | none => (s, [UdpOpResult.sendPanic])
  | UdpOp.recv src len :: ops =>
    match s.recv src len with
    | Except.ok (l, s1) =>
      let r := runOps s1 ops
      (r.1, UdpOpResult.recvd l :: r.2)
    | Except.error e =>
      let r := runOps s ops
      (r.1, UdpOpResult.recvErr e :: r.2)

/-- `ConnCtx` (main.rs lines 281–299): the Session-facing half of one
data connection — a duplex pipe endpoint (modelled as the ordered log of
payloads the Session has written into it) and the one-shot stop sender,
held as `Option<Sender>` and consumed by `take().unwrap()`.  `stopSent`
counts cancellations actually delivered. -/
structure ConnCtx where
  bidi : List (List Byte)
  stop : Option Unit
  stopSent : Nat
deriving DecidableEq

/-- The `Client` session actor (main.rs lines 175–184): connection
contexts, the hard-coded configuration triple, the control-stream send
half (modelled as the log of writes to `tx_ctrl`), and the session id.
The control-stream receive half and the stop receiver are supplied by
the environment of the event-loop model instead. -/
structure Client where
  ctx : List ConnCtx
  timeout : Nat
  interval : Nat
  packet_size : Nat
  tx_ctrl : List (List Byte)
  id : Nat
deriving DecidableEq

/-- `Client::new` (main.rs lines 186–205): empty context list, the given
configuration, and `id: 0`. -/
def Client.new (timeout interval packet_size : Nat) : Client :=
  { ctx := [], timeout := timeout, interval := interval,
    packet_size := packet_size, tx_ctrl := [], id := 0 }

/-- The send buffer of `Client::run` (main.rs line 212):
`[0u8; u16::MAX as usize]`, i.e. 65535 zero bytes, never written to
before being sliced and sent. -/
def sndbufInit : List Byte := List.replicate 65535 0

/-- The payload written on a timer tick (main.rs line 218):
`sndbuf[..packet_size].to_vec()` — a prefix of the zero buffer. -/
def probePayload (packet_size : Nat) : List Byte := sndbufInit.take packet_size

/-- The timer-tick arm of `Client::run` (main.rs lines 217–222): append
the probe payload to every connection context's pipe, once each. -/
def serviceTick (c : Client) : Client :=
  { c with ctx := c.ctx.map fun cc =>
      { cc with bidi := cc.bidi ++ [probePayload c.packet_size] } }

/-- The cancellation sweep shared by the idle-timeout and stop arms
(main.rs lines 228–230 and 234–236):
`ctx.stop.take().unwrap().send(()).unwrap()` for every context.  `none`
models the `unwrap` panic that fires if some sender was already
consumed. -/
def cancelAll (c : Client) : Option Client :=
  if c.ctx.all (fun cc => cc.stop.isSome) then
    some { c with ctx := c.ctx.map fun cc =>
      { cc with stop := none, stopSent := cc.stopSent + 1 } }
  else none

/-- Environment of one `Client::run` execution: the times (ms) at which
`rx_ctrl.read` yields `Ok(Some(len))`, in order, and the time at which
the Session's one-shot stop fires, if ever. -/
structure RunEnv where
  ctrlReads : List Nat
  stopAt : Option Nat
deriving DecidableEq

/-- Status of the `Client::run` loop.  `panicked` covers the `todo!()`
in `handle_ctrl_msg` and any failed `unwrap`. -/
inductive RunStatus
  | running
  | terminated
  | panicked
deriving DecidableEq

/-- State of the `Client::run` event loop: the actor, the loop-entry
time `start` (when `snd_timer` was created), the current time `now`
(time of the most recently serviced event), how many timer ticks and
control reads have been serviced, and the loop status. -/
structure RunState where
  client : Client
  start : Nat
  now : Nat
  ticks : Nat
  ctrlCount : Nat
  status : RunStatus
deriving DecidableEq

/-- Ready time of `snd_timer.tick()`: the `ticks`-th tick is scheduled
at `start + ticks * interval` and fires immediately if that is already
past (tokio burst behaviour). -/
def tickReady (s : RunState) : Nat :=
  max s.now (s.start + s.ticks * s.client.interval)

/-- Deadline of the `tokio::time::sleep(self.timeout)` arm.  The sleep
expression is written inline in the `select!` inside the loop, so it is
re-created at every iteration: its deadline is measured from `now`, the
start of the current iteration, not from loop entry. -/
def sleepReady (s : RunState) : Nat := s.now + s.client.timeout

/-- Ready time of the next `rx_ctrl.read` completion, if any remain. -/
def ctrlReady (e : RunEnv) (s : RunState) : Option Nat :=
  (e.ctrlReads[s.ctrlCount]?).map (max s.now)

/-- Ready time of the one-shot stop receiver, if the sender ever fires. -/
def stopReady (e : RunEnv) (s : RunState) : Option Nat :=
  e.stopAt.map (max s.now)

/-- Stop arm selected: ready no later than every other arm
(tie-break priority of the embedding). -/
def stopWins (e : RunEnv) (s : RunState) : Bool :=
  match stopReady e s with
  | some t =>
    decide (t ≤ tickReady s) && decide (t ≤ sleepReady s) &&
      (match ctrlReady e s with
       | some u => decide (t ≤ u)
       | none => true)
  | none => false

/-- Control arm selected among the remaining three. -/
def ctrlWins (e : RunEnv) (s : RunState) : Bool :=
  match ctrlReady e s with
  | some u => decide (u ≤ tickReady s) && decide (u ≤ sleepReady s)
  | none => false

/-- Tick arm selected over the sleep arm. -/
def tickWins (s : RunState) : Bool := decide (tickReady s ≤ sleepReady s)

/-- The shared body of the sleep (idle-timeout) and stop arms of
`Client::run` at ready time `t`: consume every context's stop sender
and break the loop, or panic if a sender was already gone. -/
def serviceCancel (s : RunState) (t : Nat) : RunState :=
  match cancelAll s.client with
  | some c1 => { s with client := c1, now := t, status := RunStatus.terminated }
  | none => { s with now := t, status := RunStatus.panicked }

/-- One iteration of the `Client::run` `select!` loop (main.rs lines
215–241).  The earliest-ready arm is serviced (ties resolved by the
fixed priority stop, control, tick, sleep): the tick arm fans the probe
payload out to every context pipe; the control arm reaches the `todo!()`
in `handle_ctrl_msg` and panics; the sleep (idle-timeout) and stop arms
run the cancellation sweep and break the loop.  Non-running states are
fixed points. -/
def runStep (e : RunEnv) (s : RunState) : RunState :=
  if s.status = RunStatus.running then
    if stopWins e s then
      serviceCancel s ((stopReady e s).getD s.now)
    else if ctrlWins e s then
      { s with now := ((ctrlReady e s).getD s.now), ctrlCount := s.ctrlCount + 1, status := RunStatus.panicked }
    else if tickWins s then
      { s with client := serviceTick s.client, now := tickReady s, ticks := s.ticks + 1 }
    else
      serviceCancel s (sleepReady s)
  else s

/-- Iterate the run loop `n` times. -/
def runSteps (e : RunEnv) : Nat → RunState → RunState
  | 0, s => s
  | n + 1, s => runSteps e n (runStep e s)

/-- Entry into `Client::run` at time `start` (main.rs lines 207–213):
creates the interval timer and checks
`assert!(packet_size <= u16::MAX as u64)` — a failed assertion panics
before the loop is entered. -/
def runInit (c : Client) (start : Nat) : RunState :=
  { client := c, start := start, now := start, ticks := 0, ctrlCount := 0,
    status := if c.packet_size ≤ 65535 then RunStatus.running
              else RunStatus.panicked }

/-- Every context still holds its unconsumed stop sender and has
delivered no cancellation. -/
@[reducible]
def ctxFresh (c : Client) : Prop :=
  ∀ cc ∈ c.ctx, cc.stop = some () ∧ cc.stopSent = 0

/-- Every context's stop sender has been consumed and has delivered
exactly one cancellation. -/
@[reducible]
def ctxCancelled (c : Client) : Prop :=
  ∀ cc ∈ c.ctx, cc.stop = none ∧ cc.stopSent = 1

/-- `ClientCtx` (main.rs lines 103–118): the control server's
supervision handle for one spawned session — the session's stop sender
in a nullable slot (the `JoinHandle` carries no information the claims
need). -/
structure ClientCtx where
  stop : Option Unit
deriving DecidableEq

/-- `CtrlServer` (main.rs lines 120–123): the accept loop's state, a
list of supervision handles (the QUIC endpoint is environment). -/
structure CtrlServer where
  clients : List ClientCtx
deriving DecidableEq

/-- `CtrlServer::handle_client` (main.rs lines 155–167): create a stop
channel, construct `Client::new(tx, rx, stop_rx, 1000, 1000, 1000)`,
spawn it, and retain the handle.  Returns the grown server state and
the session actor that was spawned. -/
def CtrlServer.handle_client (srv : CtrlServer) : CtrlServer × Client :=
  ({ clients := srv.clients ++ [{ stop := some () }] },
   Client.new 1000 1000 1000)

/-- Modelled from the spec: the repository module `protocol` (declared
`mod protocol;` in main.rs line 10 and used in `Client::handshake` as
`protocol::ClientMessage::Handshake(protocol::ClientHandshake { id, protocol })`)
is not under src/.  Spec section 6 gives the payload as
`Handshake{id: 64-bit unsigned, protocol: 64-bit unsigned enumerated value}`. -/
structure ClientHandshake where
  id : Nat
  protocol : Nat
deriving DecidableEq

/-- Modelled from the spec: `ControlMessage` is a tagged union whose
current sole variant is `Handshake(HandshakeMessage)` (spec section 3). -/
inductive ClientMessage
  | handshake (h : ClientHandshake)
deriving DecidableEq

/-- Modelled from the spec: the enumerated transport kind
(`protocol::TestType::Udp as u64`); the numeric value of the first
variant of the missing enum is taken as 0. -/
def testTypeUdp : Nat := 0

/-- Modelled from the spec: compact binary serialization of the tagged
union (spec section 6) in `bincode`'s layout — a 4-byte variant tag
followed by the two `u64` fields, little-endian. -/
def encodeClientMessage : ClientMessage → List Byte
  | ClientMessage.handshake h => [0, 0, 0, 0] ++ u64le h.id ++ u64le h.protocol

/-- The handshake message `Client::handshake` builds and serializes
(main.rs lines 254–258, 267): its own id and the UDP transport kind. -/
def handshakeMsg (c : Client) : List Byte :=
  encodeClientMessage (ClientMessage.handshake { id := c.id, protocol := testTypeUdp })

/-- Environment of one `Client::handshake` execution: the time at which
the one-shot completion signal fires, if ever. -/
structure HsEnv where
  completeAt : Option Nat
deriving DecidableEq

/-- The error of the handshake timeout arm
(`anyhow!("handshake timeout")`, main.rs line 274). -/
inductive HsError
  | handshakeTimeout
deriving DecidableEq

instance {ε α : Type} [DecidableEq ε] [DecidableEq α] : DecidableEq (Except ε α) := fun a b =>
  match a, b with
  | Except.ok x, Except.ok y =>
    if h : x = y then Decidable.isTrue (by rw [h])
    else Decidable.isFalse (fun hh => h (by injection hh))
  | Except.error e, Except.error f =>
    if h : e = f then Decidable.isTrue (by rw [h])
    else Decidable.isFalse (fun hh => h (by injection hh))
  | Except.ok _, Except.error _ => Decidable.isFalse (fun hh => Except.noConfusion hh)
  | Except.error _, Except.ok _ => Decidable.isFalse (fun hh => Except.noConfusion hh)

/-- State of the `Client::handshake` `select!` loop: the actor, loop
entry time `start` (when `handshake_timer` was created), current time,
ticks serviced, the `timeout` and `interval` arguments, and the result
once the loop has returned (`none` while still looping). -/
structure HsState where
  client : Client
  start : Nat
  now : Nat
  ticks : Nat
  htimeout : Nat
  hinterval : Nat
  result : Option (Except HsError Unit)
deriving DecidableEq

/-- Ready time of `handshake_timer.tick()` (burst behaviour, first tick
immediate at `start`). -/
def hsTickReady (s : HsState) : Nat :=
  max s.now (s.start + s.ticks * s.hinterval)

/-- Deadline of `tokio::time::sleep(timeout)`; the expression is inline
in the `select!` inside the loop, so it is re-created every iteration
and measured from the iteration start `now`. -/
def hsSleepReady (s : HsState) : Nat := s.now + s.htimeout

/-- Ready time of the completion receiver, if the signal ever fires. -/
def hsCompleteReady (e : HsEnv) (s : HsState) : Option Nat :=
  e.completeAt.map (max s.now)

/-- Completion arm selected (tie-break priority of the embedding). -/
def hsCompleteWins (e : HsEnv) (s : HsState) : Bool :=
  match hsCompleteReady e s with
  | some t => decide (t ≤ hsTickReady s) && decide (t ≤ hsSleepReady s)
  | none => false

/-- Retransmission tick arm selected over the timeout arm. -/
def hsTickWins (s : HsState) : Bool :=
  decide (hsTickReady s ≤ hsSleepReady s)

/-- The retransmission tick arm (main.rs lines 266–271): serialize the
handshake message and write it to every connection context's pipe —
note, to `ctx.bidi`, not to the control stream `tx_ctrl`. -/
def hsServiceTick (s : HsState) : HsState :=
  { s with
    client := { s.client with ctx := s.client.ctx.map fun cc => { cc with bidi := cc.bidi ++ [handshakeMsg s.client] } },
    now := hsTickReady s,
    ticks := s.ticks + 1 }

/-- One iteration of the `Client::handshake` `select!` loop (main.rs
lines 261–277): completion breaks with `Ok(())`; a timer tick
retransmits; the (re-created) sleep returns the timeout error.
Returned states are fixed points. -/
def hsStep (e : HsEnv) (s : HsState) : HsState :=
  if s.result = none then
    if hsCompleteWins e s then
      { s with now := ((hsCompleteReady e s).getD s.now), result := some (Except.ok ()) }
    else if hsTickWins s then
      hsServiceTick s
    else
      { s with now := hsSleepReady s, result := some (Except.error HsError.handshakeTimeout) }
  else s

/-- Iterate the handshake loop `n` times. -/
def hsSteps (e : HsEnv) : Nat → HsState → HsState
  | 0, s => s
  | n + 1, s => hsSteps e n (hsStep e s)

/-- Entry into `Client::handshake(complete, timeout, interval)` at time
`start`: builds the message, creates the interval timer, enters the
loop. -/
def hsInit (c : Client) (htimeout hinterval start : Nat) : HsState :=
  { client := c, start := start, now := start, ticks := 0,
    htimeout := htimeout, hinterval := hinterval, result := none }

/-- `t` is strictly earlier than an optional ready time (vacuously true
when the event can never fire). -/
def allLater (t : Nat) : Option Nat → Bool
  | none => true
  | some u => decide (t < u)

/-- The invariant of the `Client::run` loop that claim C8 rests on:
while the loop is running every stop sender is intact and unused, and
once it has terminated every stop sender has been consumed and has
fired exactly once. -/
def runInv (s : RunState) : Prop :=
  (s.status = RunStatus.running → ctxFresh s.client) ∧
  (s.status = RunStatus.terminated → ctxCancelled s.client)

/-- A freshly made connection context (pipe log empty, stop sender
present and unused), as `ConnCtx::new` produces. -/
def ccFresh : ConnCtx := { bidi := [], stop := some (), stopSent := 0 }

/-- An environment in which the control stream never yields bytes and
the stop signal never fires. -/
def envQuiet : RunEnv := { ctrlReads := [], stopAt := none }

/-- A session with three active connection contexts, probe interval
1 ms, idle timeout 5 ms, packet size 2 (concrete witness data). -/
def clientThree : Client :=
  { ctx := [ccFresh, ccFresh, ccFresh], timeout := 5, interval := 1,
    packet_size := 2, tx_ctrl := [], id := 0 }

/-- The run state at loop entry for the three-context session
(concrete witness data: the tick arm is selected first). -/
def stateThree : RunState :=
  { client := clientThree, start := 0, now := 0, ticks := 0, ctrlCount := 0,
    status := RunStatus.running }

/-- A session with no contexts, idle timeout 2 ms and probe interval
1 ms (concrete counterexample data for the idle-timeout claim). -/
def clientIdle : Client :=
  { ctx := [], timeout := 2, interval := 1, packet_size := 0,
    tx_ctrl := [], id := 0 }

/-- A one-context session with idle timeout 1 ms and probe interval
3 ms (concrete witness data). -/
def clientSlowTick : Client :=
  { ctx := [ccFresh], timeout := 1, interval := 3, packet_size := 0,
    tx_ctrl := [], id := 0 }

/-- A run state whose next timer tick is 3 ms away while only 1 ms of
idle timeout remains (concrete witness data: the sleep arm is strictly
earliest). -/
def stateIdleWin : RunState :=
  { client := clientSlowTick, start := 0, now := 0, ticks := 1,
    ctrlCount := 0, status := RunStatus.running }

/-- An environment whose stop signal fires immediately (concrete
witness data for the cancellation claim). -/
def envStopNow : RunEnv := { ctrlReads := [], stopAt := some 0 }

/-- A session with one fresh context (concrete witness data). -/
def clientOne : Client :=
  { ctx := [ccFresh], timeout := 5, interval := 3, packet_size := 0,
    tx_ctrl := [], id := 0 }

/-- A handshake run against a never-completing peer with retry interval
1 ms and timeout 3 ms, on a session owning one connection context
(concrete counterexample data). -/
def hsStateB (n : Nat) : HsState :=
  hsSteps { completeAt := none } n
    (hsInit { Client.new 1000 1000 1000 with ctx := [ccFresh] } 3 1 0)

/-- A handshake run against a never-completing peer with retry interval
2 ms and timeout 5 ms (concrete counterexample data). -/
def hsStateC (n : Nat) : HsState :=
  hsSteps { completeAt := none } n (hsInit (Client.new 1000 1000 1000) 5 2 0)

/-- A handshake state one iteration before an immediate completion
signal (concrete witness data: completion is ready at time 0, the next
retransmission tick only at 4, the timeout at 9). -/
def hsStateComplete : HsState :=
  { client := Client.new 1000 1000 1000, start := 0, now := 0, ticks := 1,
    htimeout := 9, hinterval := 4, result := none }

/-- The environment of a handshake whose peer never delivers the
completion signal. -/
def hsEnvSilent : HsEnv := { completeAt := none }

/-- The environment of a handshake whose completion signal is ready
immediately. -/
def hsEnvComplete : HsEnv := { completeAt := some 0 }

/-- The environment of a handshake whose completion signal fires at
3 ms (concrete witness data for the completion-before-timeout case). -/
def hsEnvAt3 : HsEnv := { completeAt := some 3 }

/-- Invariant of the handshake loop facing a silent peer whose retry
interval is shorter than its timeout: the loop has not returned, and
the next scheduled tick is at most one interval past the current time —
so the re-created sleep can never win the race. -/
def hsLive (s : HsState) : Prop :=
  s.result = none ∧ s.hinterval < s.htimeout ∧
  s.start + s.ticks * s.hinterval ≤ s.now + s.hinterval

/-! ## Theorems -/

/-- Once a peer `p` is pinned, any sequence of receives leaves the
socket unchanged and classifies each datagram purely by source address:
from `p` it succeeds, from anybody else it fails with the mismatch
error. -/
theorem recvTrace_pinned (k : SocketKind) (p : Addr) :
    ∀ ds : List (Addr × Nat),
      recvTrace ⟨k, some p⟩ ds =
        (⟨k, some p⟩, ds.map fun d =>
          if d.1 = p then Except.ok d.2 else Except.error RecvError.peerMismatch)
  | [] => rfl
  | d :: ds => by
    by_cases h : d.1 = p
    · simp [recvTrace, UdpLatency.recv, h, recvTrace_pinned k p ds]
    · simp [recvTrace, UdpLatency.recv, h, recvTrace_pinned k p ds]

/-- C1: a Reflector (Server-kind) socket starts with no pinned peer;
its first receive pins the sender's address `p` as the peer, and for
the whole remainder of the receive trace every datagram whose source
differs from `p` fails with the `PeerMismatch` error (and leaves the
socket state untouched), while datagrams from `p` keep succeeding. -/
theorem reflector_pins_first_peer_rejects_rest (a p : Addr) (l : Nat)
    (ds : List (Addr × Nat)) :
    recvTrace (UdpLatency.newServer a) ((p, l) :: ds) =
      (⟨SocketKind.server, some p⟩,
        Except.ok l :: ds.map fun d =>
          if d.1 = p then Except.ok d.2 else Except.error RecvError.peerMismatch) := by
  simp [recvTrace, UdpLatency.recv, UdpLatency.newServer, recvTrace_pinned]

/-- A socket whose peer is already fixed at `r` behaves uniformly on
any operation sequence: each send goes to `r`, each receive is
classified by whether its source is `r`, and the state never changes. -/
theorem runOps_pinned (k : SocketKind) (r : Addr) :
    ∀ ops : List UdpOp,
      runOps ⟨k, some r⟩ ops =
        (⟨k, some r⟩, ops.map fun op =>
          match op with
          | UdpOp.send buf => UdpOpResult.sent r buf.length
          | UdpOp.recv src len =>
            if src = r then UdpOpResult.recvd len
            else UdpOpResult.recvErr RecvError.peerMismatch)
  | [] => rfl
  | UdpOp.send buf :: ops => by
    simp [runOps, UdpLatency.send, runOps_pinned k r ops]
  | UdpOp.recv src len :: ops => by
    by_cases h : src = r
    · simp [runOps, UdpLatency.recv, h, runOps_pinned k r ops]
    · simp [runOps, UdpLatency.recv, h, runOps_pinned k r ops]

/-- C9: an Initiator (Client-kind) socket is constructed with its
remote `r` as the fixed peer; across any sequence of send and receive
calls, every send targets exactly `r` (never any other address, and
never the panic path), every receive from a source other than `r`
fails with the `PeerMismatch` error, and the configured peer never
changes. -/
theorem initiator_sends_only_to_fixed_remote (r : Addr) (ops : List UdpOp) :
    runOps (UdpLatency.newClient r) ops =
      (UdpLatency.newClient r, ops.map fun op =>
        match op with
        | UdpOp.send buf => UdpOpResult.sent r buf.length
        | UdpOp.recv src len =>
          if src = r then UdpOpResult.recvd len
          else UdpOpResult.recvErr RecvError.peerMismatch) :=
  runOps_pinned SocketKind.client r ops

/-- C7 counterexample: `send` is available on a Server-kind socket
whose peer has not yet been learned — the invalid combination is
representable, and invoking it reaches the runtime panic path
(`self.peer.unwrap()` on `None`), modelled as `none`.  This refutes the
claim that such a combination is unrepresentable rather than checked at
runtime. -/
theorem server_send_before_peer_is_runtime_panic :
    UdpLatency.send (UdpLatency.newServer 0) [0] = none := rfl

/-- C7 amended: the role is fixed at construction (separate
constructors produce the two kinds), but `send` is implemented
uniformly for every kind (`impl<Kind> Latency for UdpLatency<Kind>`)
and is guarded only at runtime: it panics exactly when no peer is
configured; a fresh Server socket has no peer, so its send panics,
while after the peer is learned (or, for a Client, fixed at
construction) send succeeds and targets that peer. -/
theorem send_guarded_only_at_runtime_by_peer :
    (∀ (s : UdpLatency) (buf : List Byte),
      (UdpLatency.send s buf = none ↔ s.peer = none)) ∧
    (∀ (a : Addr) (buf : List Byte),
      (UdpLatency.newServer a).peer = none ∧
      UdpLatency.send (UdpLatency.newServer a) buf = none) ∧
    (∀ (a p : Addr) (l : Nat) (buf : List Byte),
      (UdpLatency.newServer a).recv p l =
        Except.ok (l, ⟨SocketKind.server, some p⟩) ∧
      UdpLatency.send ⟨SocketKind.server, some p⟩ buf =
        some (p, buf.length, ⟨SocketKind.server, some p⟩)) := by
  refine ⟨fun s buf => ?_, fun a buf => ⟨rfl, rfl⟩, fun a p l buf => ⟨rfl, rfl⟩⟩
  rcases s with ⟨k, _ | p⟩
  · simp [UdpLatency.send]
  · simp [UdpLatency.send]

/-- C10: every Session the control server spawns is constructed with
the hard-coded configuration (timeout 1000 ms, probe interval 1000 ms,
packet size 1000 bytes) and session id 0; in particular the sessions
spawned for any two accepted clients are identical, so the id field
cannot distinguish them. -/
theorem ctrl_server_spawns_hardcoded_sessions (srv srv2 : CtrlServer) :
    (srv.handle_client).2.timeout = 1000 ∧
    (srv.handle_client).2.interval = 1000 ∧
    (srv.handle_client).2.packet_size = 1000 ∧
    (srv.handle_client).2.id = 0 ∧
    (srv.handle_client).2 = (srv2.handle_client).2 :=
  ⟨rfl, rfl, rfl, rfl, rfl⟩

/-- `cancelAll` on a client all of whose stop senders are present
consumes each sender and counts one delivery on each context. -/
theorem cancelAll_eq_some (c : Client)
    (h : ∀ cc ∈ c.ctx, cc.stop.isSome = true) :
    cancelAll c = some { c with ctx := c.ctx.map fun cc =>
      { cc with stop := none, stopSent := cc.stopSent + 1 } } := by
  unfold cancelAll
  rw [if_pos (List.all_eq_true.mpr h)]

/-- C2: while the run loop is in SteadyState and the probe-timer tick
is the selected arm, the step appends one identical copy of the probe
payload — whose length is exactly the configured packet size, given the
entry assertion bound — to every active ConnectionContext's pipe,
exactly once per context (each pipe's write count grows by exactly
one), and the loop keeps running. -/
theorem tick_fans_out_identical_payload_once (e : RunEnv) (s : RunState)
    (hrun : s.status = RunStatus.running)
    (hstop : stopWins e s = false)
    (hctrl : ctrlWins e s = false)
    (htick : tickWins s = true)
    (hsize : s.client.packet_size ≤ 65535) :
    (runStep e s).client.ctx =
      s.client.ctx.map (fun cc =>
        { cc with bidi := cc.bidi ++ [probePayload s.client.packet_size] }) ∧
    (probePayload s.client.packet_size).length = s.client.packet_size ∧
    ((runStep e s).client.ctx.map fun cc => cc.bidi.length) =
      (s.client.ctx.map fun cc => cc.bidi.length + 1) ∧
    (runStep e s).status = RunStatus.running := by
  have hstep : runStep e s = { s with client := serviceTick s.client, now := tickReady s, ticks := s.ticks + 1 } := by
    unfold runStep
    rw [if_pos hrun, if_neg (by simp [hstop]), if_neg (by simp [hctrl]),
      if_pos htick]
  have hlen : (probePayload s.client.packet_size).length = s.client.packet_size := by
    unfold probePayload sndbufInit
    rw [List.length_take, List.length_replicate]
    exact Nat.min_eq_left hsize
  refine ⟨?_, hlen, ?_, ?_⟩
  · rw [hstep]; rfl
  · rw [hstep]
    simp [serviceTick, List.map_map, Function.comp]
  · rw [hstep]
    exact hrun

/-- C2 witness: a Session with exactly 3 active ConnectionContexts, on
one timer tick, writes the same 2-byte probe payload to each of the 3
pipes exactly once. -/
theorem tick_fans_out_identical_payload_once_witness :
    (runStep envQuiet stateThree).client.ctx =
      stateThree.client.ctx.map (fun cc =>
        { cc with bidi := cc.bidi ++ [probePayload stateThree.client.packet_size] }) ∧
    (probePayload stateThree.client.packet_size).length =
      stateThree.client.packet_size ∧
    ((runStep envQuiet stateThree).client.ctx.map fun cc => cc.bidi.length) =
      (stateThree.client.ctx.map fun cc => cc.bidi.length + 1) ∧
    (runStep envQuiet stateThree).status = RunStatus.running :=
  tick_fans_out_identical_payload_once envQuiet stateThree rfl rfl rfl rfl
    (by decide)

/-- C3 counterexample: with idle timeout 2 ms and probe interval 1 ms,
the timer ticks at 0, 1, 2 and 3 ms each re-create the
`tokio::time::sleep(self.timeout)` future, so after 4 loop iterations
the session clock stands at 3 ms — strictly beyond the configured
2 ms timeout measured from session start — yet the Session is still
running in SteadyState, refuting both that the idle-timeout is absolute
from session start and that it is not reset by activity. -/
theorem idle_timeout_not_absolute :
    clientIdle.timeout = 2 ∧
    (runSteps envQuiet 4 (runInit clientIdle 0)).status = RunStatus.running ∧
    (runSteps envQuiet 4 (runInit clientIdle 0)).now = 3 := by decide

/-- C3 amended: the idle-timeout is re-armed at every loop iteration —
its deadline is the configured duration after the most recently
serviced event, so it is reset by every tick, control read, or other
serviced arm; when that deadline is strictly earlier than every other
arm's ready time, the Session transitions to Terminating at exactly
`now + timeout`, cancelling every ConnectionContext. -/
theorem idle_timeout_rearmed_each_iteration (e : RunEnv) (s : RunState)
    (hrun : s.status = RunStatus.running)
    (htick : sleepReady s < tickReady s)
    (hctrl : allLater (sleepReady s) (ctrlReady e s) = true)
    (hstop : allLater (sleepReady s) (stopReady e s) = true)
    (hfresh : ∀ cc ∈ s.client.ctx, cc.stop.isSome = true) :
    (runStep e s).status = RunStatus.terminated ∧
    (runStep e s).now = s.now + s.client.timeout ∧
    (runStep e s).client.ctx =
      s.client.ctx.map (fun cc =>
        { cc with stop := none, stopSent := cc.stopSent + 1 }) := by
  have hsw : stopWins e s = false := by
    unfold stopWins
    cases h : stopReady e s with
    | none => rfl
    | some u =>
      have hu : sleepReady s < u := by
        rw [h] at hstop
        simpa [allLater] using hstop
      have hd : decide (u ≤ sleepReady s) = false :=
        decide_eq_false (Nat.not_le.mpr hu)
      simp [hd]
  have hcw : ctrlWins e s = false := by
    unfold ctrlWins
    cases h : ctrlReady e s with
    | none => rfl
    | some u =>
      have hu : sleepReady s < u := by
        rw [h] at hctrl
        simpa [allLater] using hctrl
      have hd : decide (u ≤ sleepReady s) = false :=
        decide_eq_false (Nat.not_le.mpr hu)
      simp [hd]
  have htw : tickWins s = false := by
    unfold tickWins
    exact decide_eq_false (Nat.not_le.mpr htick)
  have hstep : runStep e s = serviceCancel s (sleepReady s) := by
    unfold runStep
    rw [if_pos hrun, if_neg (by simp [hsw]), if_neg (by simp [hcw]),
      if_neg (by simp [htw])]
  rw [hstep]
  unfold serviceCancel
  rw [cancelAll_eq_some s.client hfresh]
  exact ⟨rfl, rfl, rfl⟩

/-- C3 witness: a state whose next tick is 3 ms away while 1 ms of
(re-armed) idle timeout remains terminates on this step at 1 ms,
cancelling its context. -/
theorem idle_timeout_rearmed_each_iteration_witness :
    (runStep envQuiet stateIdleWin).status = RunStatus.terminated ∧
    (runStep envQuiet stateIdleWin).now =
      stateIdleWin.now + stateIdleWin.client.timeout ∧
    (runStep envQuiet stateIdleWin).client.ctx =
      stateIdleWin.client.ctx.map (fun cc =>
        { cc with stop := none, stopSent := cc.stopSent + 1 }) :=
  idle_timeout_rearmed_each_iteration envQuiet stateIdleWin rfl (by decide)
    rfl rfl (by decide)

/-- Non-running run-loop states are fixed points: the loop has exited
(or panicked) and performs no further writes or cancellations. -/
theorem runStep_of_exited (e : RunEnv) (s : RunState)
    (h : s.status ≠ RunStatus.running) : runStep e s = s := by
  unfold runStep
  rw [if_neg h]

/-- One step of the run loop preserves the cancellation invariant:
running states keep every stop sender fresh, terminated states have
consumed each exactly once. -/
theorem runInv_step (e : RunEnv) (s : RunState) (h : runInv s) :
    runInv (runStep e s) := by
  by_cases hrun : s.status = RunStatus.running
  · have hF : ctxFresh s.client := h.1 hrun
    have hsome : ∀ cc ∈ s.client.ctx, cc.stop.isSome = true := fun cc hcc => by
      rw [(hF cc hcc).1]; rfl
    have hca := cancelAll_eq_some s.client hsome
    have hCancelled : ctxCancelled { s.client with ctx := s.client.ctx.map fun cc => { cc with stop := none, stopSent := cc.stopSent + 1 } } := by
      intro cc hcc
      simp only [List.mem_map] at hcc
      rcases hcc with ⟨cc0, hcc0, rfl⟩
      exact ⟨rfl, by rw [(hF cc0 hcc0).2]⟩
    unfold runStep
    rw [if_pos hrun]
    by_cases hsw : stopWins e s
    · rw [if_pos hsw]
      unfold serviceCancel
      rw [hca]
      exact ⟨(fun hh => nomatch hh), (fun _ => hCancelled)⟩
    · rw [if_neg hsw]
      by_cases hcw : ctrlWins e s
      · rw [if_pos hcw]
        exact ⟨(fun hh => nomatch hh), (fun hh => nomatch hh)⟩
      · rw [if_neg hcw]
        by_cases htw : tickWins s
        · rw [if_pos htw]
          refine ⟨(fun _ => ?_), (fun hh => absurd (hrun.symm.trans hh) (by decide))⟩
          intro cc hcc
          simp only [serviceTick, List.mem_map] at hcc
          rcases hcc with ⟨cc0, hcc0, rfl⟩
          exact ⟨(hF cc0 hcc0).1, (hF cc0 hcc0).2⟩
        · rw [if_neg htw]
          unfold serviceCancel
          rw [hca]
          exact ⟨(fun hh => nomatch hh), (fun _ => hCancelled)⟩
  · rw [runStep_of_exited e s hrun]
    exact h

/-- The cancellation invariant is preserved by any number of steps. -/
theorem runInv_steps (e : RunEnv) :
    ∀ (n : Nat) (s : RunState), runInv s → runInv (runSteps e n s)
  | 0, _, h => h
  | n + 1, s, h => runInv_steps e n (runStep e s) (runInv_step e s h)

/-- C8: starting `Client::run` on a session whose contexts are all
fresh, after any number of loop iterations under any environment: while
the loop still runs no stop sender has been touched, and once the
Session has transitioned to Terminating (whether the stop signal or the
idle-timeout arm triggered it) every owned ConnectionContext's one-shot
stop sender has been consumed exactly once (taken, and one cancellation
delivered), and the loop has exited — the terminated state is a fixed
point that waits on nothing. -/
theorem session_cancellation_consumes_each_sender_once (e : RunEnv)
    (c : Client) (start n : Nat) (hF : ctxFresh c) :
    ((runSteps e n (runInit c start)).status = RunStatus.running →
      ctxFresh (runSteps e n (runInit c start)).client) ∧
    ((runSteps e n (runInit c start)).status = RunStatus.terminated →
      ctxCancelled (runSteps e n (runInit c start)).client ∧
      runStep e (runSteps e n (runInit c start)) =
        runSteps e n (runInit c start)) := by
  have h0 : runInv (runInit c start) := by
    constructor
    · intro _; exact hF
    · intro hh
      by_cases hp : c.packet_size ≤ 65535
      · simp [runInit, hp] at hh
      · simp [runInit, hp] at hh
  have hinv := runInv_steps e n (runInit c start) h0
  refine ⟨hinv.1, fun ht => ⟨hinv.2 ht, runStep_of_exited e _ ?_⟩⟩
  rw [ht]
  exact fun hh => nomatch hh

/-- C8 witness: a one-context session whose stop signal fires
immediately terminates after one step with the sender consumed exactly
once, and the terminated state is a fixed point. -/
theorem session_cancellation_consumes_each_sender_once_witness :
    ((runSteps envStopNow 1 (runInit clientOne 0)).status = RunStatus.running →
      ctxFresh (runSteps envStopNow 1 (runInit clientOne 0)).client) ∧
    ((runSteps envStopNow 1 (runInit clientOne 0)).status = RunStatus.terminated →
      ctxCancelled (runSteps envStopNow 1 (runInit clientOne 0)).client ∧
      runStep envStopNow (runSteps envStopNow 1 (runInit clientOne 0)) =
        runSteps envStopNow 1 (runInit clientOne 0)) :=
  session_cancellation_consumes_each_sender_once envStopNow clientOne 0 1
    (by decide)

/-- C6 counterexample: with retry interval 1 ms and timeout 3 ms
against a silent peer, six iterations of the handshake loop retransmit
the serialized handshake message six times, every copy written to the
single connection context's pipe and none to the control stream
`tx_ctrl`; moreover at 5 ms — past the 3 ms configured overall timeout
measured from handshake start — the loop has not stopped.  This refutes
both that retransmission goes over the control channel and that it
stops when the overall timeout elapses. -/
theorem handshake_retransmits_on_pipes_not_ctrl_channel :
    (hsStateB 6).result = none ∧
    (hsStateB 6).client.tx_ctrl = [] ∧
    ((hsStateB 6).client.ctx.map fun cc => cc.bidi) =
      [List.replicate 6 (handshakeMsg (Client.new 1000 1000 1000))] ∧
    (hsStateB 6).now = 5 ∧
    (hsStateB 6).htimeout = 3 := by decide

/-- C6 amended: in the Handshaking state the Session serializes the
HandshakeMessage (carrying its session id and the UDP transport kind)
and, on every retry-interval tick, writes one copy to every
ConnectionContext pipe — the control channel `tx_ctrl` receives
nothing; it stops exactly when the completion signal wins the race
(returning success) or when, within a single loop iteration, the
re-created sleep's timeout elapses before any tick or completion
(returning the `HandshakeTimeout` failure). -/
theorem handshake_step_characterisation (e : HsEnv) (s : HsState)
    (h : s.result = none) :
    (hsCompleteWins e s = true →
      (hsStep e s).result = some (Except.ok ()) ∧
      (hsStep e s).client = s.client) ∧
    (hsCompleteWins e s = false → hsTickWins s = true →
      (hsStep e s).result = none ∧
      (hsStep e s).client.tx_ctrl = s.client.tx_ctrl ∧
      (hsStep e s).client.ctx =
        s.client.ctx.map (fun cc =>
          { cc with bidi := cc.bidi ++ [handshakeMsg s.client] })) ∧
    (hsCompleteWins e s = false → hsTickWins s = false →
      (hsStep e s).result = some (Except.error HsError.handshakeTimeout) ∧
      (hsStep e s).client = s.client ∧
      (hsStep e s).now = s.now + s.htimeout) := by
  refine ⟨fun hc => ?_, fun hc ht => ?_, fun hc ht => ?_⟩
  · have hh : hsStep e s = { s with now := ((hsCompleteReady e s).getD s.now), result := some (Except.ok ()) } := by
      unfold hsStep
      rw [if_pos h, if_pos hc]
    rw [hh]
    exact ⟨rfl, rfl⟩
  · have hh : hsStep e s = hsServiceTick s := by
      unfold hsStep
      rw [if_pos h, if_neg (by simp [hc]), if_pos ht]
    rw [hh]
    exact ⟨h, rfl, rfl⟩
  · have hh : hsStep e s = { s with now := hsSleepReady s, result := some (Except.error HsError.handshakeTimeout) } := by
      unfold hsStep
      rw [if_pos h, if_neg (by simp [hc]), if_neg (by simp [ht])]
    rw [hh]
    exact ⟨rfl, rfl, rfl⟩

/-- C6 witness: a handshake state whose completion signal is ready
immediately (next tick 4 ms away, timeout 9 ms away) returns success on
this step without touching the session's channels. -/
theorem handshake_step_characterisation_witness :
    (hsCompleteWins hsEnvComplete hsStateComplete = true →
      (hsStep hsEnvComplete hsStateComplete).result = some (Except.ok ()) ∧
      (hsStep hsEnvComplete hsStateComplete).client = hsStateComplete.client) ∧
    (hsCompleteWins hsEnvComplete hsStateComplete = false →
      hsTickWins hsStateComplete = true →
      (hsStep hsEnvComplete hsStateComplete).result = none ∧
      (hsStep hsEnvComplete hsStateComplete).client.tx_ctrl =
        hsStateComplete.client.tx_ctrl ∧
      (hsStep hsEnvComplete hsStateComplete).client.ctx =
        hsStateComplete.client.ctx.map (fun cc =>
          { cc with bidi := cc.bidi ++ [handshakeMsg hsStateComplete.client] })) ∧
    (hsCompleteWins hsEnvComplete hsStateComplete = false →
      hsTickWins hsStateComplete = false →
      (hsStep hsEnvComplete hsStateComplete).result =
        some (Except.error HsError.handshakeTimeout) ∧
      (hsStep hsEnvComplete hsStateComplete).client = hsStateComplete.client ∧
      (hsStep hsEnvComplete hsStateComplete).now =
        hsStateComplete.now + hsStateComplete.htimeout) :=
  handshake_step_characterisation hsEnvComplete hsStateComplete rfl

/-- C4 counterexample: with retry interval 2 ms and configured timeout
5 ms against a peer that never completes, after four loop iterations
the clock stands at 6 ms — strictly past the configured 5 ms measured
from handshake start — yet the handshake has not failed (nor returned
at all): no `HandshakeTimeout` was produced at or near the configured
duration, because the inline sleep is re-created each iteration and
pre-empted by every retransmission tick. -/
theorem handshake_timeout_missed_at_configured_duration :
    (hsStateC 4).result = none ∧
    (hsStateC 4).htimeout = 5 ∧
    (hsStateC 4).now = 6 := by decide

/-- A live handshake step facing a silent peer is always a
retransmission tick, and it preserves liveness. -/
theorem hsStep_of_live (e : HsEnv) (s : HsState)
    (he : e.completeAt = none) (hl : hsLive s) :
    hsStep e s = hsServiceTick s ∧ hsLive (hsServiceTick s) := by
  obtain ⟨hres, hlt, hbound⟩ := hl
  have hcw : hsCompleteWins e s = false := by
    unfold hsCompleteWins hsCompleteReady
    rw [he]
    rfl
  have htw : hsTickWins s = true := by
    unfold hsTickWins
    apply decide_eq_true
    unfold hsTickReady hsSleepReady
    apply max_le
    · exact Nat.le_add_right _ _
    · exact le_trans hbound (Nat.add_le_add_left (le_of_lt hlt) _)
  constructor
  · unfold hsStep
    rw [if_pos hres, if_neg (by simp [hcw]), if_pos htw]
  · refine ⟨hres, hlt, ?_⟩
    show s.start + (s.ticks + 1) * s.hinterval ≤ hsTickReady s + s.hinterval
    have h1 : s.start + s.ticks * s.hinterval ≤ hsTickReady s :=
      le_max_right s.now (s.start + s.ticks * s.hinterval)
    have h2 : s.start + (s.ticks + 1) * s.hinterval =
        s.start + s.ticks * s.hinterval + s.hinterval := by ring
    rw [h2]
    exact Nat.add_le_add_right h1 _

/-- Silent-peer half of claim C4: against a peer that never delivers
the handshake-completion signal, when the retry interval is strictly
shorter than the configured timeout the handshake never fails and never
returns — every one of the first `n` iterations, for every `n`, is a
retransmission tick, because the `sleep(timeout)` future is re-created
each iteration and the next tick is always at most one interval away;
the Session therefore never reaches SteadyState through this handshake,
but no `HandshakeTimeout` is ever produced either. -/
theorem handshake_never_times_out_with_silent_peer (e : HsEnv) (c : Client)
    (ht hi start : Nat) (he : e.completeAt = none) (hlt : hi < ht) :
    ∀ n, (hsSteps e n (hsInit c ht hi start)).result = none ∧
      (hsSteps e n (hsInit c ht hi start)).ticks = n := by
  have key : ∀ (n : Nat) (s : HsState), hsLive s →
      hsLive (hsSteps e n s) ∧ (hsSteps e n s).ticks = s.ticks + n := by
    intro n
    induction n with
    | zero => exact fun s hs => ⟨hs, rfl⟩
    | succ n ih =>
      intro s hs
      have hstep := hsStep_of_live e s he hs
      have hrec := ih (hsStep e s) (by rw [hstep.1]; exact hstep.2)
      refine ⟨hrec.1, ?_⟩
      have ht2 : (hsStep e s).ticks = s.ticks + 1 := by
        rw [hstep.1]
        rfl
      rw [show hsSteps e (n + 1) s = hsSteps e n (hsStep e s) from rfl,
        hrec.2, ht2]
      omega
  intro n
  have h0 : hsLive (hsInit c ht hi start) := by
    refine ⟨rfl, hlt, ?_⟩
    show start + 0 * hi ≤ start + hi
    omega
  have hk := key n (hsInit c ht hi start) h0
  exact ⟨hk.1.1, by rw [hk.2]; exact Nat.zero_add n⟩

/-- When the loop is live, the pending completion signal at time `t`
has already been reached by the current time or the tick schedule, and
`t` is within the re-armed timeout, the next step is the completion arm:
the handshake returns success at exactly time `t`. -/
theorem hsStep_one_ok (e : HsEnv) (t : Nat) (s : HsState)
    (he : e.completeAt = some t) (hres : s.result = none)
    (hnow : s.now ≤ t) (hto : t ≤ s.now + s.htimeout)
    (htick : t ≤ hsTickReady s) :
    ∃ n, (hsSteps e n s).result = some (Except.ok ()) ∧
      (hsSteps e n s).now = t := by
  have hcr : hsCompleteReady e s = some t := by
    unfold hsCompleteReady
    rw [he]
    simp [max_eq_right hnow]
  have hcw : hsCompleteWins e s = true := by
    unfold hsCompleteWins
    rw [hcr]
    simp [hsSleepReady, htick, hto]
  have hstepEq : hsStep e s = { s with now := t, result := some (Except.ok ()) } := by
    unfold hsStep
    rw [if_pos hres, if_pos hcw, hcr]
    rfl
  refine ⟨1, ?_, ?_⟩
  · rw [show hsSteps e 1 s = hsStep e s from rfl, hstepEq]
  · rw [show hsSteps e 1 s = hsStep e s from rfl, hstepEq]

/-- Fuel-indexed reachability for the completion arm: if the pending
completion time `t` lies within `k` more scheduled retransmission ticks
and within the re-armed timeout, the handshake eventually returns
success at exactly time `t` (each earlier iteration is a tick strictly
before `t`). -/
theorem hsSteps_reach_ok (e : HsEnv) (t : Nat) (he : e.completeAt = some t) :
    ∀ (k : Nat) (s : HsState), s.result = none → s.now ≤ t →
      t < s.now + s.htimeout →
      t ≤ s.start + s.ticks * s.hinterval + k * s.hinterval →
      ∃ n, (hsSteps e n s).result = some (Except.ok ()) ∧
        (hsSteps e n s).now = t := by
  intro k
  induction k with
  | zero =>
    intro s hres hnow hto hbound
    refine hsStep_one_ok e t s he hres hnow (le_of_lt hto) ?_
    have hb : t ≤ s.start + s.ticks * s.hinterval := by
      simpa using hbound
    exact le_trans hb (le_max_right _ _)
  | succ k ih =>
    intro s hres hnow hto hbound
    by_cases hsched : s.start + s.ticks * s.hinterval < t
    · by_cases hnt : s.now = t
      · refine hsStep_one_ok e t s he hres hnow (le_of_lt hto) ?_
        exact le_trans (le_of_eq hnt.symm) (le_max_left _ _)
      · have hnlt : s.now < t := lt_of_le_of_ne hnow hnt
        have htlt : hsTickReady s < t := by
          unfold hsTickReady
          exact max_lt hnlt hsched
        have hcr : hsCompleteReady e s = some t := by
          unfold hsCompleteReady
          rw [he]
          simp [max_eq_right hnow]
        have hcw : hsCompleteWins e s = false := by
          unfold hsCompleteWins
          rw [hcr]
          have hd : decide (t ≤ hsTickReady s) = false :=
            decide_eq_false (Nat.not_le.mpr htlt)
          simp [hd]
        have htw : hsTickWins s = true := by
          unfold hsTickWins
          apply decide_eq_true
          show hsTickReady s ≤ hsSleepReady s
          exact le_of_lt (lt_trans htlt hto)
        have hstepEq : hsStep e s = hsServiceTick s := by
          unfold hsStep
          rw [if_pos hres, if_neg (by simp [hcw]), if_pos htw]
        have hres2 : (hsServiceTick s).result = none := hres
        have hnow2 : (hsServiceTick s).now ≤ t := le_of_lt htlt
        have hto2 : t < (hsServiceTick s).now + (hsServiceTick s).htimeout := by
          show t < hsTickReady s + s.htimeout
          exact lt_of_lt_of_le hto (Nat.add_le_add_right (le_max_left _ _) _)
        have hbound2 : t ≤ (hsServiceTick s).start +
            (hsServiceTick s).ticks * (hsServiceTick s).hinterval +
            k * (hsServiceTick s).hinterval := by
          show t ≤ s.start + (s.ticks + 1) * s.hinterval + k * s.hinterval
          have heq : s.start + (s.ticks + 1) * s.hinterval + k * s.hinterval =
              s.start + s.ticks * s.hinterval + (k + 1) * s.hinterval := by ring
          rw [heq]
          exact hbound
        obtain ⟨n, hn1, hn2⟩ := ih (hsServiceTick s) hres2 hnow2 hto2 hbound2
        refine ⟨n + 1, ?_, ?_⟩
        · rw [show hsSteps e (n + 1) s = hsSteps e n (hsStep e s) from rfl, hstepEq]
          exact hn1
        · rw [show hsSteps e (n + 1) s = hsSteps e n (hsStep e s) from rfl, hstepEq]
          exact hn2
    · refine hsStep_one_ok e t s he hres hnow (le_of_lt hto) ?_
      exact le_trans (Nat.not_lt.mp hsched) (le_max_right _ _)

/-- C4 amended: against a peer that never delivers the
handshake-completion signal, when the retry interval is strictly
shorter than the configured timeout the handshake never fails and never
returns — every one of the first `n` iterations, for every `n`, is a
retransmission tick, because the `sleep(timeout)` future is re-created
each iteration and the next tick is always at most one interval away,
so the Session never reaches SteadyState through this handshake but no
`HandshakeTimeout` is ever produced either; and when the completion
signal is delivered at a time `t` between handshake start (inclusive)
and the configured timeout (strictly earlier), with a nonzero retry
interval (tokio panics on a zero interval period), the handshake
returns success at exactly time `t` — strictly before the configured
timeout measured from handshake start. -/
theorem handshake_silent_peer_loops_completion_succeeds (e : HsEnv)
    (c : Client) (ht hi start : Nat) :
    (e.completeAt = none → hi < ht →
      ∀ n, (hsSteps e n (hsInit c ht hi start)).result = none ∧
        (hsSteps e n (hsInit c ht hi start)).ticks = n) ∧
    (∀ t, e.completeAt = some t → start ≤ t → t < start + ht → 1 ≤ hi →
      ∃ n, (hsSteps e n (hsInit c ht hi start)).result = some (Except.ok ()) ∧
        (hsSteps e n (hsInit c ht hi start)).now = t ∧
        (hsSteps e n (hsInit c ht hi start)).now < start + ht) := by
  constructor
  · intro he hlt n
    exact handshake_never_times_out_with_silent_peer e c ht hi start he hlt n
  · intro t he hst hto hhi
    have hto2 : t < (hsInit c ht hi start).now + (hsInit c ht hi start).htimeout := hto
    have hbound : t ≤ (hsInit c ht hi start).start +
        (hsInit c ht hi start).ticks * (hsInit c ht hi start).hinterval +
        (t - start) * (hsInit c ht hi start).hinterval := by
      show t ≤ start + 0 * hi + (t - start) * hi
      have hmul : t - start ≤ (t - start) * hi := Nat.le_mul_of_pos_right _ hhi
      omega
    obtain ⟨n, hn1, hn2⟩ := hsSteps_reach_ok e t he (t - start)
      (hsInit c ht hi start) rfl hst hto2 hbound
    refine ⟨n, hn1, hn2, ?_⟩
    rw [hn2]
    exact hto

/-- C4 witness: (a) retry interval 2 ms, timeout 5 ms, silent peer —
after seven iterations the handshake has returned nothing and has
retransmitted seven times; (b) same configuration with completion
delivered at 3 ms — the handshake returns success at 3 ms, strictly
before the 5 ms timeout. -/
theorem handshake_silent_peer_loops_completion_succeeds_witness :
    ((hsSteps hsEnvSilent 7 (hsInit (Client.new 1000 1000 1000) 5 2 0)).result = none ∧
      (hsSteps hsEnvSilent 7 (hsInit (Client.new 1000 1000 1000) 5 2 0)).ticks = 7) ∧
    (∃ n, (hsSteps hsEnvAt3 n (hsInit (Client.new 1000 1000 1000) 5 2 0)).result =
        some (Except.ok ()) ∧
      (hsSteps hsEnvAt3 n (hsInit (Client.new 1000 1000 1000) 5 2 0)).now = 3 ∧
      (hsSteps hsEnvAt3 n (hsInit (Client.new 1000 1000 1000) 5 2 0)).now < 0 + 5) :=
  ⟨(handshake_silent_peer_loops_completion_succeeds hsEnvSilent
      (Client.new 1000 1000 1000) 5 2 0).1 rfl (by decide) 7,
   (handshake_silent_peer_loops_completion_succeeds hsEnvAt3
      (Client.new 1000 1000 1000) 5 2 0).2 3 rfl (by decide) (by decide)
      (by decide)⟩

/-- C5 (code bug): the payload the Session writes on every probe tick
is `packet_size` bytes taken from the untouched zero send buffer — for
the configuration the control server spawns (packet size 1000) it is
exactly 1000 zero bytes — and it is not an encoding of any
`LatencyMsg{id, seq, timestamp}`: every such encoding is exactly 24
bytes long.  The source defines `LatencyMsg` but never constructs or
serializes one, keeps no sequence counter, and stamps no timestamp. -/
theorem probe_payload_is_zeros_not_latency_msg :
    probePayload (CtrlServer.handle_client { clients := [] }).2.packet_size =
      List.replicate 1000 (0 : Byte) ∧
    (∀ m : LatencyMsg, (encodeLatencyMsg m).length = 24) ∧
    (∀ m : LatencyMsg,
      encodeLatencyMsg m ≠
        probePayload (CtrlServer.handle_client { clients := [] }).2.packet_size) := by
  have h24 : ∀ m : LatencyMsg, (encodeLatencyMsg m).length = 24 := by
    intro m
    simp [encodeLatencyMsg, u64le]
  have hpp : probePayload (CtrlServer.handle_client { clients := [] }).2.packet_size =
      List.replicate 1000 (0 : Byte) := by
    show probePayload 1000 = List.replicate 1000 (0 : Byte)
    unfold probePayload sndbufInit
    rw [List.take_replicate]
    norm_num
  refine ⟨hpp, h24, fun m h => ?_⟩
  have hlen := congrArg List.length h
  rw [h24 m, hpp, List.length_replicate] at hlen
  exact absurd hlen (by decide)

end Niceperf
